import Mathlib

/-
Verification development for xcape (src/xcape.c).

The event-processing core of xcape is shallowly embedded here:
the record callback intercept(), the per-rule handler handle_key(),
the generated-event list (key_add_key and the removal scan inside
intercept), and the configuration parser (parse_token, parse_mapping,
keysym_from_string, keysym_from_keycode).

Modelling choices, all read off the C source:
- KeyCode, KeySym, layout groups and times are Nat; timeval values are
  microseconds, and timersub followed by timercmp(<) on a release that
  comes after the press is truncated subtraction followed by Nat.lt.
- X11 library lookups (XkbKeycodeToKeysym at shift level 0,
  XStringToKeysym, XKeysymToKeycode) and strtoul are external inputs,
  passed as function parameters; NoSymbol and a missing keycode are 0,
  as in the headers.
- Calls with an observable server-side effect (XTestFakeKeyEvent,
  XFlush, XkbLockGroup) are recorded in an output trace of actions.
- An observed record event carries its kind byte and code byte
  (data->data[0], data->data[1]), the gettimeofday value of the moment
  it is handled, the XkbGetState group read at entry to intercept, the
  group read back after XkbLockGroup, and whether its category is
  XRecordFromServer.
-/

namespace Xcape

/-- Event kind byte of an observed record event: KeyPress, KeyRelease,
ButtonPress or ButtonRelease. -/
inductive EvKind where
  | keyPress
  | keyRelease
  | buttonPress
  | buttonRelease
deriving DecidableEq, Repr

/-- One observed record event as delivered to intercept(). -/
structure Event where
  kind : EvKind
  code : Nat
  time : Nat
  group : Nat
  groupAfterLock : Nat
  fromServer : Bool
deriving DecidableEq, Repr

/-- One KeyMap_t node: the trigger (either a keysym or, when useKeyCode
is set, a raw keycode), the list of substitution keycodes (to_keys, in
list order), and the mutable per-rule state pressed, used, down_at. -/
structure KeyMap where
  useKeyCode : Bool
  from_ks : Nat
  from_kc : Nat
  to_keys : List Nat
  used : Bool
  pressed : Bool
  down_at : Nat
deriving DecidableEq, Repr

/-- The mutable program state of the XCape_t context together with the
static mouse_pressed flag of intercept(): the rule list, the generated
list (oldest first, key_add_key appends at the tail), the timeout, and
the two group bytes. -/
structure XCape where
  map : List KeyMap
  generated : List Nat
  timeout : Nat
  intended_group : Nat
  previous_group : Nat
  mouse_pressed : Bool
deriving DecidableEq, Repr

/-- Observable server-side effects: XTestFakeKeyEvent (code, is_press),
XFlush, XkbLockGroup. -/
inductive Action where
  | fake (code : Nat) (isPress : Bool)
  | flush
  | lockGroup (g : Nat)
deriving DecidableEq, Repr

/-- True exactly on XTestFakeKeyEvent actions. -/
def Action.isFake : Action → Bool
  | Action.fake _ _ => true
  | _ => false

/-- True exactly on XFlush actions. -/
def Action.isFlush : Action → Bool
  | Action.flush => true
  | _ => false

/-- KeyPress or ButtonPress. -/
def isPressKind : EvKind → Bool
  | EvKind.keyPress => true
  | EvKind.buttonPress => true
  | _ => false

/-- The matching test of the rule loop in intercept(): either the rule
is keysym-based and XkbKeycodeToKeysym(code, 0, 0) equals from_ks, or it
is keycode-based and the code equals from_kc. -/
def km_match (kc2ks : Nat → Nat) (km : KeyMap) (code : Nat) : Bool :=
  (!km.useKeyCode && decide (kc2ks code = km.from_ks))
    || (km.useKeyCode && decide (code = km.from_kc))

/-- handle_key(): on KeyPress record pressed and down_at and disqualify
at once when a mouse button is held; otherwise (release path) inject the
substitution when the rule is clean and the elapsed time is strictly
below the timeout, recording every injected code in the generated list
(press pass first, then release pass), and reset pressed and used.
Returns the updated rule, the updated generated list and the emitted
actions. -/
def handle_key (timeout : Nat) (generated : List Nat) (key : KeyMap)
    (mouse_pressed : Bool) (key_event : EvKind) (now : Nat) :
    KeyMap × List Nat × List Action :=
  if key_event = EvKind.keyPress then
    ({ key with pressed := true, down_at := now,
                used := if mouse_pressed then true else key.used },
     generated, [])
  else
    if key.used = false ∧ now - key.down_at < timeout then
      ({ key with used := false, pressed := false },
       generated ++ key.to_keys ++ key.to_keys,
       key.to_keys.map (fun k => Action.fake k true)
         ++ key.to_keys.map (fun k => Action.fake k false)
         ++ [Action.flush])
    else
      ({ key with used := false, pressed := false }, generated, [])

/-- The rule loop of intercept(): each rule whose trigger matches the
event code goes through handle_key; every other rule that is currently
pressed is marked used on a KeyPress or ButtonPress. -/
def processRules (kc2ks : Nat → Nat) (timeout : Nat) (key_event : EvKind)
    (code now : Nat) (mouse_pressed : Bool) :
    List KeyMap → List Nat → List KeyMap × List Nat × List Action
  | [], generated => ([], generated, [])
  | km :: rest, generated =>
    if km_match kc2ks km code then
      let r := handle_key timeout generated km mouse_pressed key_event now
      let rr := processRules kc2ks timeout key_event code now mouse_pressed
                  rest r.2.1
      (r.1 :: rr.1, rr.2.1, r.2.2 ++ rr.2.2)
    else if km.pressed = true
            ∧ (key_event = EvKind.keyPress ∨ key_event = EvKind.buttonPress) then
      let rr := processRules kc2ks timeout key_event code now mouse_pressed
                  rest generated
      ({ km with used := true } :: rr.1, rr.2.1, rr.2.2)
    else
      let rr := processRules kc2ks timeout key_event code now mouse_pressed
                  rest generated
      (km :: rr.1, rr.2.1, rr.2.2)

/-- The generated-list scan of intercept(): remove the first entry whose
code matches, front (oldest) first; none when no entry matches. -/
def consume (generated : List Nat) (code : Nat) : Option (List Nat) :=
  match generated with
  | [] => none
  | g :: rest =>
    if g = code then some rest
    else
      match consume rest code with
      | none => none
      | some rest2 => some (g :: rest2)

/-- intercept(): for a from-server event, first scan the generated list
and drop the event when it matches (goto exit: nothing else runs); else
update mouse_pressed, run the rule loop, then the group logic; for any
other callback only the group logic runs. The group logic adopts the
group read at entry as intended when it differs from previous_group,
asserts the intended group with XkbLockGroup, and stores the group read
back after the lock as previous_group. -/
def intercept (kc2ks : Nat → Nat) (s : XCape) (e : Event) :
    XCape × List Action :=
  if e.fromServer = true then
    match consume s.generated e.code with
    | some gen2 => ({ s with generated := gen2 }, [])
    | none =>
      let mouse :=
        if e.kind = EvKind.buttonPress then true
        else if e.kind = EvKind.buttonRelease then false
        else s.mouse_pressed
      let r := processRules kc2ks s.timeout e.kind e.code e.time mouse
                 s.map s.generated
      let intended :=
        if s.previous_group ≠ e.group then e.group else s.intended_group
      ({ s with map := r.1, generated := r.2.1, mouse_pressed := mouse,
                intended_group := intended,
                previous_group := e.groupAfterLock },
       r.2.2 ++ [Action.lockGroup intended])
  else
    let intended :=
      if s.previous_group ≠ e.group then e.group else s.intended_group
    ({ s with intended_group := intended,
              previous_group := e.groupAfterLock },
     [Action.lockGroup intended])

/-- Process a list of events in order, accumulating the action trace. -/
def runEvents (kc2ks : Nat → Nat) (s : XCape) :
    List Event → XCape × List Action
  | [] => (s, [])
  | e :: rest =>
    let r := intercept kc2ks s e
    let rr := runEvents kc2ks r.1 rest
    (rr.1, r.2 ++ rr.2)

/-- The per-rule transform applied by the rule loop of intercept() to
every rule independently. -/
def ruleStep (kc2ks : Nat → Nat) (timeout : Nat) (key_event : EvKind)
    (code now : Nat) (mouse_pressed : Bool) (km : KeyMap) : KeyMap :=
  if km_match kc2ks km code then
    (handle_key timeout [] km mouse_pressed key_event now).1
  else if km.pressed = true
          ∧ (key_event = EvKind.keyPress ∨ key_event = EvKind.buttonPress) then
    { km with used := true }
  else km

/-- States reachable by the event loop: the program starts with an
empty generated list, the static mouse flag false and every parsed rule
neither pressed nor used, and then evolves only through intercept(). -/
inductive Reachable (kc2ks : Nat → Nat) : XCape → Prop where
  | init (map : List KeyMap) (timeout ig pg : Nat)
      (h : ∀ km ∈ map, km.pressed = false ∧ km.used = false) :
      Reachable kc2ks
        { map := map, generated := [], timeout := timeout,
          intended_group := ig, previous_group := pg,
          mouse_pressed := false }
  | step (s : XCape) (e : Event) (hs : Reachable kc2ks s) :
      Reachable kc2ks (intercept kc2ks s e).1

/-
Configuration parsing (parse_mapping, parse_token and helpers).
The X11 lookups and strtoul are external inputs collected in ParseEnv.
-/

/-- External lookups used by the parser: XStringToKeysym (none for
NoSymbol), XkbKeycodeToKeysym at shift level 0 (0 for NoSymbol),
XKeysymToKeycode (0 when no keycode is bound), and strtoul with base 0
(value of the longest numeric prefix, 0 when there is none). Strings
are character lists, as in the C char arrays. -/
structure ParseEnv where
  str2ks : List Char → Option Nat
  kc2ks : Nat → Nat
  ks2kc : Nat → Nat
  strtoul0 : List Char → Nat

/-- The zero-initialized KeyMap_t produced by calloc in parse_token. -/
def emptyKeyMap : KeyMap :=
  { useKeyCode := false, from_ks := 0, from_kc := 0, to_keys := [],
    used := false, pressed := false, down_at := 0 }

/-- strsep(&s, sep) applied once: the text before the first separator
and the rest after it, or none when the separator does not occur. -/
def strsepOnce (sep : Char) : List Char → List Char × Option (List Char)
  | [] => ([], none)
  | ch :: rest =>
    if ch = sep then ([], some rest)
    else
      ((strsepOnce sep rest).1.cons ch, (strsepOnce sep rest).2)

/-- strsep(&s, sep) applied until the text is exhausted: n separators
yield n + 1 pieces, empty pieces included. -/
def strsepAll (sep : Char) : List Char → List (List Char)
  | [] => [[]]
  | ch :: rest =>
    if ch = sep then [] :: strsepAll sep rest
    else
      match strsepAll sep rest with
      | [] => [[ch]]
      | piece :: pieces => (ch :: piece) :: pieces

/-- keysym_from_keycode(): parse the text after the hash mark with
strtoul; when the value fits in a keycode and resolves to a keysym,
make the rule keycode-based; otherwise report the error and leave the
rule untouched (the function returns without propagating the failure). -/
def keysym_from_keycode (env : ParseEnv) (key : List Char) (km : KeyMap) :
    KeyMap :=
  let parsed := env.strtoul0 key
  if parsed ≤ 255 ∧ env.kc2ks parsed ≠ 0 then
    { km with useKeyCode := true, from_kc := parsed }
  else km

/-- keysym_from_string(): resolve the trigger name with XStringToKeysym;
on success make the rule keysym-based; on NoSymbol report the error and
leave the rule untouched (the function returns without propagating the
failure). -/
def keysym_from_string (env : ParseEnv) (fromStr : List Char)
    (km : KeyMap) : KeyMap :=
  match env.str2ks fromStr with
  | none => km
  | some ks => { km with useKeyCode := false, from_ks := ks, to_keys := [] }

/-- The to-side loop of parse_token(): each pipe-separated item is
either a hash-prefixed keycode or a keysym name resolved to a keycode;
any unresolvable item aborts the whole token with NULL; resolved codes
are appended with key_add_key. -/
def parse_to_keys (env : ParseEnv) (km : KeyMap) :
    List (List Char) → Option KeyMap
  | [] => some km
  | key :: rest =>
    match key with
    | '#' :: key2 =>
      if env.strtoul0 key2 ≤ 255 ∧ env.kc2ks (env.strtoul0 key2) ≠ 0 then
        parse_to_keys env
          { km with to_keys := km.to_keys ++ [env.strtoul0 key2] } rest
      else none
    | _ =>
      match env.str2ks key with
      | none => none
      | some ks =>
        if env.ks2kc ks = 0 then none
        else
          parse_to_keys env
            { km with to_keys := km.to_keys ++ [env.ks2kc ks] } rest

/-- parse_token(): split the token at the first equals sign; a token
without one yields NULL; otherwise resolve the from-side into the
calloc-fresh rule (by keycode when hash-prefixed, else by name) and
then run the to-side loop over the pipe-separated items. -/
def parse_token (env : ParseEnv) (token : List Char) : Option KeyMap :=
  match strsepOnce '=' token with
  | (_, none) => none
  | (fromStr, some toStr) =>
    let km1 :=
      match fromStr with
      | '#' :: fromStr2 => keysym_from_keycode env fromStr2 emptyKeyMap
      | _ => keysym_from_string env fromStr emptyKeyMap
    parse_to_keys env km1 (strsepAll '|' toStr)

/-- parse_mapping(): split the mapping string at semicolons and collect
every token parse_token accepts, in order. -/
def parse_mapping (env : ParseEnv) (mapping : List Char) : List KeyMap :=
  (strsepAll ';' mapping).filterMap (parse_token env)

/-
Concrete sample data used to exercise the definitions, mirroring the
spec scenarios (Escape is keysym 65307 on keycode 9, Control_L is
keysym 65507 on keycode 37, Super_L sits on keycode 133); timeouts and
times are in microseconds.
-/

/-- Keycode-based rule: trigger keycode 37, substitution keycode 9. -/
def kmSingle : KeyMap :=
  { useKeyCode := true, from_ks := 0, from_kc := 37, to_keys := [9],
    used := false, pressed := false, down_at := 0 }

/-- Keycode-based chord rule: trigger keycode 133, substitution
keycodes 37 then 9. -/
def kmChord : KeyMap :=
  { useKeyCode := true, from_ks := 0, from_kc := 133, to_keys := [37, 9],
    used := false, pressed := false, down_at := 0 }

/-- Idle single-rule state with the default 500 ms timeout. -/
def sSingle : XCape :=
  { map := [kmSingle], generated := [], timeout := 500000,
    intended_group := 0, previous_group := 0, mouse_pressed := false }

/-- Idle chord-rule state with the default 500 ms timeout. -/
def sChord : XCape :=
  { map := [kmChord], generated := [], timeout := 500000,
    intended_group := 0, previous_group := 0, mouse_pressed := false }

/-- State with outstanding generated entries 9, 5, 9 (oldest first). -/
def sLedger : XCape :=
  { map := [kmSingle], generated := [9, 5, 9], timeout := 500000,
    intended_group := 0, previous_group := 0, mouse_pressed := false }

/-- State with one outstanding generated entry 5 and group bytes 0. -/
def sEcho : XCape :=
  { map := [], generated := [5], timeout := 500000, intended_group := 0,
    previous_group := 0, mouse_pressed := false }

/-- Echo event with code 5 arriving while the server reports group 1. -/
def eEcho : Event :=
  { kind := EvKind.keyPress, code := 5, time := 0, group := 1,
    groupAfterLock := 1, fromServer := true }

/-- Parser environment resolving only Escape and Control_L, with a
strtoul that reads the decimal strings used in the samples. -/
def envSample : ParseEnv :=
  { str2ks := fun s =>
      if s = "Escape".data then some 65307
      else if s = "Control_L".data then some 65507
      else none,
    kc2ks := fun c => if c = 9 then 65307 else if c = 37 then 65507 else 0,
    ks2kc := fun k => if k = 65307 then 9 else if k = 65507 then 37 else 0,
    strtoul0 := fun s =>
      if s = "9".data then 9 else if s = "37".data then 37 else 0 }

/-
Supporting lemmas.
-/

/-- The generated-list scan fails exactly on codes with no entry. -/
theorem consume_eq_none (generated : List Nat) (code : Nat)
    (h : code ∉ generated) : consume generated code = none := by
  induction generated with
  | nil => rfl
  | cons g rest ih =>
    have h1 : ¬(code = g ∨ code ∈ rest) := fun hc => h (List.mem_cons.mpr hc)
    have hg : g ≠ code := fun he => h1 (Or.inl he.symm)
    have hr : code ∉ rest := fun he => h1 (Or.inr he)
    unfold consume
    rw [if_neg hg, ih hr]

/-- The generated-list scan removes exactly the first (oldest) matching
entry. -/
theorem consume_eq_erase (generated : List Nat) (code : Nat)
    (h : code ∈ generated) :
    consume generated code = some (generated.erase code) := by
  induction generated with
  | nil => cases h
  | cons g rest ih =>
    unfold consume
    by_cases hg : g = code
    · rw [if_pos hg, hg, List.erase_cons_head]
    · rw [if_neg hg]
      have hmem : code ∈ rest := by
        rcases List.mem_cons.mp h with h1 | h1
        · exact absurd h1.symm hg
        · exact h1
      rw [ih hmem, List.erase_cons_tail]
      simp [hg]

/-- The rule produced by handle_key does not depend on the generated
list. -/
theorem handle_key_fst (timeout : Nat) (generated : List Nat)
    (key : KeyMap) (mouse_pressed : Bool) (key_event : EvKind) (now : Nat) :
    (handle_key timeout generated key mouse_pressed key_event now).1
      = (handle_key timeout [] key mouse_pressed key_event now).1 := by
  unfold handle_key
  split
  · rfl
  · split <;> rfl

/-- The rule list after the rule loop is the pointwise ruleStep image. -/
theorem processRules_fst (kc2ks : Nat → Nat) (timeout : Nat)
    (key_event : EvKind) (code now : Nat) (mouse_pressed : Bool)
    (ms : List KeyMap) (generated : List Nat) :
    (processRules kc2ks timeout key_event code now mouse_pressed
        ms generated).1
      = ms.map (ruleStep kc2ks timeout key_event code now mouse_pressed) := by
  induction ms generalizing generated with
  | nil => rfl
  | cons km rest ih =>
    simp only [processRules, List.map_cons, ruleStep]
    by_cases hm : km_match kc2ks km code = true
    · rw [if_pos hm, if_pos hm, handle_key_fst timeout generated]
      exact congrArg _ (ih _)
    · rw [if_neg hm, if_neg hm]
      by_cases hp : km.pressed = true
          ∧ (key_event = EvKind.keyPress ∨ key_event = EvKind.buttonPress)
      · rw [if_pos hp, if_pos hp]
        exact congrArg _ (ih _)
      · rw [if_neg hp, if_neg hp]
        exact congrArg _ (ih _)

/-- Rule matching only reads the trigger fields, not the mutable
state. -/
theorem km_match_update (kc2ks : Nat → Nat) (km : KeyMap)
    (u p : Bool) (d : Nat) (code : Nat) :
    km_match kc2ks { km with used := u, pressed := p, down_at := d } code
      = km_match kc2ks km code := rfl

/-- Rule matching is unchanged by updating only the used flag. -/
theorem km_match_update_used (kc2ks : Nat → Nat) (km : KeyMap)
    (u : Bool) (code : Nat) :
    km_match kc2ks { km with used := u } code = km_match kc2ks km code := rfl

/-- Event processing splits over list concatenation. -/
theorem runEvents_append (kc2ks : Nat → Nat) (s : XCape)
    (l1 l2 : List Event) :
    runEvents kc2ks s (l1 ++ l2)
      = ((runEvents kc2ks (runEvents kc2ks s l1).1 l2).1,
         (runEvents kc2ks s l1).2
           ++ (runEvents kc2ks (runEvents kc2ks s l1).1 l2).2) := by
  induction l1 generalizing s with
  | nil => simp [runEvents]
  | cons e rest ih =>
    simp only [List.cons_append, runEvents, List.append_eq]
    rw [ih]
    simp

/-- intercept() never changes the timeout. -/
theorem intercept_timeout (kc2ks : Nat → Nat) (s : XCape) (e : Event) :
    (intercept kc2ks s e).1.timeout = s.timeout := by
  unfold intercept
  split
  · cases h : consume s.generated e.code <;> simp
  · simp

/-- A list of synthetic key events survives the fake-action filter. -/
theorem filter_isFake_map_fake (l : List Nat) (b : Bool) :
    (l.map (fun k => Action.fake k b)).filter Action.isFake
      = l.map (fun k => Action.fake k b) := by
  induction l with
  | nil => rfl
  | cons k rest ih => simp [Action.isFake, ih]

/-- A list of synthetic key events survives any filter that keeps fake
actions. -/
theorem filter_map_fake_of_fake_true (p : Action → Bool)
    (hp : ∀ k b, p (Action.fake k b) = true) (l : List Nat) (b : Bool) :
    (l.map (fun k => Action.fake k b)).filter p
      = l.map (fun k => Action.fake k b) := by
  induction l with
  | nil => rfl
  | cons k rest ih => simp [hp, ih]

/-- One non-matching, non-echo event over a single-rule map: the rule
keeps its trigger data and stays pressed, the generated list is
untouched, nothing is injected, and used is set exactly when the event
is a key or button press. -/
theorem processRules_one_no_match (kc2ks : Nat → Nat) (timeout : Nat)
    (e : Event) (km : KeyMap) (gen : List Nat) (mouse : Bool)
    (hp : km.pressed = true)
    (hnm : km_match kc2ks km e.code = false) :
    processRules kc2ks timeout e.kind e.code e.time mouse [km] gen
      = ([{ km with used := km.used || isPressKind e.kind }], gen, []) := by
  simp only [processRules]
  rw [if_neg (show ¬km_match kc2ks km e.code = true by simp [hnm])]
  by_cases hpk : km.pressed = true
      ∧ (e.kind = EvKind.keyPress ∨ e.kind = EvKind.buttonPress)
  · rw [if_pos hpk]
    rcases hpk.2 with hk | hk <;>
      simp [processRules, hk, isPressKind]
  · rw [if_neg hpk]
    have hk : isPressKind e.kind = false := by
      cases hkk : e.kind with
      | keyPress => exact absurd ⟨hp, Or.inl hkk⟩ hpk
      | buttonPress => exact absurd ⟨hp, Or.inr hkk⟩ hpk
      | keyRelease => rfl
      | buttonRelease => rfl
    simp [processRules, hk]

/-- Running a list of non-matching, non-echo events over a single-rule
map with the rule pressed and the generated list empty: the rule stays
pressed with its trigger data intact, nothing is injected, and used is
set exactly when it already was or some event in the list is a key or
button press. -/
theorem runEvents_no_match (kc2ks : Nat → Nat) (mids : List Event) :
    ∀ (s : XCape) (km : KeyMap),
      s.map = [km] → s.generated = [] → km.pressed = true →
      (∀ e ∈ mids, e.fromServer = true
          ∧ km_match kc2ks km e.code = false) →
      (runEvents kc2ks s mids).1.map
          = [{ km with
                used := km.used || mids.any (fun e => isPressKind e.kind) }]
        ∧ (runEvents kc2ks s mids).1.generated = []
        ∧ (runEvents kc2ks s mids).1.timeout = s.timeout
        ∧ (∀ a ∈ (runEvents kc2ks s mids).2,
             ∃ g, a = Action.lockGroup g) := by
  induction mids with
  | nil =>
    intro s km hmap hgen hp hmids
    simp only [runEvents]
    exact ⟨by rw [hmap]; simp, hgen, by trivial, by simp⟩
  | cons e rest ih =>
    intro s km hmap hgen hp hmids
    obtain ⟨hesv, henm⟩ := hmids e (List.mem_cons_self e rest)
    have hint : intercept kc2ks s e
        = ({ s with
              map := [{ km with used := km.used || isPressKind e.kind }],
              generated := [],
              mouse_pressed :=
                if e.kind = EvKind.buttonPress then true
                else if e.kind = EvKind.buttonRelease then false
                else s.mouse_pressed,
              intended_group :=
                if s.previous_group ≠ e.group then e.group
                else s.intended_group,
              previous_group := e.groupAfterLock },
           [Action.lockGroup
              (if s.previous_group ≠ e.group then e.group
               else s.intended_group)]) := by
      unfold intercept
      rw [if_pos hesv, hgen, hmap]
      simp only [consume]
      rw [processRules_one_no_match kc2ks s.timeout e km [] _ hp henm]
      rfl
    set km1 : KeyMap := { km with used := km.used || isPressKind e.kind }
      with hkm1
    have hih := ih (intercept kc2ks s e).1 km1
      (by rw [hint]) (by rw [hint]) (by rw [hkm1]; exact hp)
      (fun e2 he2 => by
        obtain ⟨h1, h2⟩ := hmids e2 (List.mem_cons_of_mem e he2)
        exact ⟨h1, by rw [hkm1, km_match_update_used]; exact h2⟩)
    obtain ⟨ih1, ih2, ih3, ih4⟩ := hih
    simp only [runEvents]
    refine ⟨?_, ih2, ?_, ?_⟩
    · rw [ih1, hkm1]
      simp [Bool.or_assoc]
    · rw [ih3, hint]
    · intro a ha
      rcases List.mem_append.mp ha with ha1 | ha2
      · rw [hint] at ha1
        simp only [List.mem_append, List.mem_singleton] at ha1
        exact ⟨_, ha1⟩
      · exact ih4 a ha2

/-- A consumed observed event: the oldest matching generated entry is
removed and absolutely nothing else happens. -/
theorem intercept_consumed (kc2ks : Nat → Nat) (s : XCape) (e : Event)
    (hsv : e.fromServer = true) (hmem : e.code ∈ s.generated) :
    intercept kc2ks s e
      = ({ s with generated := s.generated.erase e.code }, []) := by
  unfold intercept
  rw [if_pos hsv, consume_eq_erase s.generated e.code hmem]

/-- A non-echo KeyPress of the trigger of a single-rule map: the rule
records pressed and the press time, is disqualified at once when the
mouse flag is held, and nothing is injected. -/
theorem intercept_press_match (kc2ks : Nat → Nat) (s : XCape) (e : Event)
    (km : KeyMap)
    (hm : s.map = [km]) (hsv : e.fromServer = true)
    (hkind : e.kind = EvKind.keyPress)
    (hc : consume s.generated e.code = none)
    (hmatch : km_match kc2ks km e.code = true) :
    intercept kc2ks s e
      = ({ s with
            map := [{ km with
                        pressed := true,
                        down_at := e.time,
                        used := (if s.mouse_pressed then true
                                 else km.used) }],
            intended_group :=
              if s.previous_group ≠ e.group then e.group
              else s.intended_group,
            previous_group := e.groupAfterLock },
         [Action.lockGroup
            (if s.previous_group ≠ e.group then e.group
             else s.intended_group)]) := by
  unfold intercept
  rw [if_pos hsv, hc, hm, hkind]
  simp only [processRules, handle_key]
  rw [if_pos hmatch]
  simp [processRules]

/-- A non-echo KeyRelease of the trigger of a single-rule map, rule
clean and elapsed time strictly below the timeout: the whole
substitution sequence is injected (press pass, release pass, one
flush), every injected code is recorded twice in the generated list,
and the rule returns to idle. -/
theorem intercept_release_tap (kc2ks : Nat → Nat) (s : XCape) (e : Event)
    (km : KeyMap)
    (hm : s.map = [km]) (hsv : e.fromServer = true)
    (hkind : e.kind = EvKind.keyRelease)
    (hc : consume s.generated e.code = none)
    (hmatch : km_match kc2ks km e.code = true)
    (hused : km.used = false)
    (htime : e.time - km.down_at < s.timeout) :
    intercept kc2ks s e
      = ({ s with
            map := [{ km with used := false, pressed := false }],
            generated := s.generated ++ km.to_keys ++ km.to_keys,
            intended_group :=
              if s.previous_group ≠ e.group then e.group
              else s.intended_group,
            previous_group := e.groupAfterLock },
         km.to_keys.map (fun k => Action.fake k true)
           ++ km.to_keys.map (fun k => Action.fake k false)
           ++ [Action.flush]
           ++ [Action.lockGroup
                 (if s.previous_group ≠ e.group then e.group
                  else s.intended_group)]) := by
  unfold intercept
  rw [if_pos hsv, hc, hm, hkind]
  simp only [processRules, handle_key]
  rw [if_pos hmatch]
  rw [if_neg (by simp : ¬EvKind.keyRelease = EvKind.keyPress)]
  rw [if_pos ⟨hused, htime⟩]
  simp [processRules]

/-- A non-echo KeyRelease of the trigger of a single-rule map when the
rule is disqualified or the elapsed time reached the timeout: nothing
is injected and the rule returns to idle. -/
theorem intercept_release_no_tap (kc2ks : Nat → Nat) (s : XCape)
    (e : Event) (km : KeyMap)
    (hm : s.map = [km]) (hsv : e.fromServer = true)
    (hkind : e.kind = EvKind.keyRelease)
    (hc : consume s.generated e.code = none)
    (hmatch : km_match kc2ks km e.code = true)
    (hno : ¬(km.used = false ∧ e.time - km.down_at < s.timeout)) :
    intercept kc2ks s e
      = ({ s with
            map := [{ km with used := false, pressed := false }],
            intended_group :=
              if s.previous_group ≠ e.group then e.group
              else s.intended_group,
            previous_group := e.groupAfterLock },
         [Action.lockGroup
            (if s.previous_group ≠ e.group then e.group
             else s.intended_group)]) := by
  unfold intercept
  rw [if_pos hsv, hc, hm, hkind]
  simp only [processRules, handle_key]
  rw [if_pos hmatch]
  rw [if_neg (by simp : ¬EvKind.keyRelease = EvKind.keyPress)]
  rw [if_neg hno]
  simp [processRules]

/-- Full trace decomposition of a confirmed tap: a press of the
trigger, any observed non-press events that match no rule, then the
release strictly inside the timeout. Everything emitted outside the
one substitution burst is a group re-assertion. -/
theorem run_tap_parts (kc2ks : Nat → Nat) (km : KeyMap)
    (T ig pg c t1 t2 g1 ga1 g2 ga2 : Nat) (mids : List Event)
    (hused : km.used = false)
    (hmatch : km_match kc2ks km c = true)
    (hmids : ∀ e ∈ mids, e.fromServer = true
        ∧ km_match kc2ks km e.code = false ∧ isPressKind e.kind = false)
    (htime : t2 - t1 < T) :
    ∃ pre post : List Action,
      (runEvents kc2ks
          { map := [km], generated := [], timeout := T,
            intended_group := ig, previous_group := pg,
            mouse_pressed := false }
          (⟨EvKind.keyPress, c, t1, g1, ga1, true⟩
            :: (mids
                ++ [⟨EvKind.keyRelease, c, t2, g2, ga2, true⟩]))).2
        = pre
          ++ (km.to_keys.map (fun k => Action.fake k true)
              ++ km.to_keys.map (fun k => Action.fake k false)
              ++ [Action.flush] ++ post)
      ∧ (∀ a ∈ pre, ∃ g, a = Action.lockGroup g)
      ∧ (∀ a ∈ post, ∃ g, a = Action.lockGroup g) := by
  set s0 : XCape :=
    { map := [km], generated := [], timeout := T, intended_group := ig,
      previous_group := pg, mouse_pressed := false } with hs0
  set e1 : Event := ⟨EvKind.keyPress, c, t1, g1, ga1, true⟩ with he1
  set e2 : Event := ⟨EvKind.keyRelease, c, t2, g2, ga2, true⟩ with he2
  set km1 : KeyMap :=
    { km with pressed := true, down_at := t1, used := false } with hkm1
  have h1 : intercept kc2ks s0 e1
      = ({ s0 with
            map := [km1],
            intended_group :=
              (if s0.previous_group ≠ e1.group then e1.group
               else s0.intended_group),
            previous_group := e1.groupAfterLock },
         [Action.lockGroup
            (if s0.previous_group ≠ e1.group then e1.group
             else s0.intended_group)]) := by
    rw [intercept_press_match kc2ks s0 e1 km rfl rfl rfl rfl
          (by exact hmatch)]
    rw [hkm1, hs0, he1]
    simp [hused]
  obtain ⟨hm2, hg2, ht2, hl2⟩ :=
    runEvents_no_match kc2ks mids (intercept kc2ks s0 e1).1 km1
      (by rw [h1]) (by rw [h1]) (by rw [hkm1])
      (fun e he => ⟨(hmids e he).1, by exact (hmids e he).2.1⟩)
  have hany : mids.any (fun e => isPressKind e.kind) = false := by
    rw [List.any_eq_false]
    intro e he
    simp [(hmids e he).2.2]
  have h3 := intercept_release_tap kc2ks
      (runEvents kc2ks (intercept kc2ks s0 e1).1 mids).1 e2
      { km1 with used := km1.used || mids.any (fun e => isPressKind e.kind) }
      hm2 rfl rfl (by rw [hg2]; rfl) (by exact hmatch)
      (by simp [hany, hkm1])
      (by rw [ht2, h1]
          simp only [hany, Bool.or_false]
          show t2 - km1.down_at < T
          rw [hkm1]
          exact htime)
  refine ⟨[Action.lockGroup
              (if s0.previous_group ≠ e1.group then e1.group
               else s0.intended_group)]
            ++ (runEvents kc2ks (intercept kc2ks s0 e1).1 mids).2,
          [Action.lockGroup
              (if (runEvents kc2ks (intercept kc2ks s0 e1).1 mids).1.previous_group
                    ≠ e2.group
               then e2.group
               else (runEvents kc2ks
                      (intercept kc2ks s0 e1).1 mids).1.intended_group)],
          ?_, ?_, ?_⟩
  · simp only [runEvents, runEvents_append]
    rw [h3, h1]
    simp [List.append_assoc]
  · intro a ha
    rcases List.mem_append.mp ha with ha1 | ha2
    · exact ⟨_, List.mem_singleton.mp ha1⟩
    · exact hl2 a ha2
  · intro a ha
    exact ⟨_, List.mem_singleton.mp ha⟩

/-- Mouse invariant: in every reachable state, while the shared mouse
flag is set every pressed rule is already disqualified. A button press
either goes through handle_key (resetting pressed) or sets used on
every pressed rule, and a trigger press with the mouse held sets used
at once. -/
theorem reachable_mouse_inv (kc2ks : Nat → Nat) (s : XCape)
    (h : Reachable kc2ks s) :
    s.mouse_pressed = true →
      ∀ km ∈ s.map, km.pressed = true → km.used = true := by
  induction h with
  | init map timeout ig pg hmap =>
    intro hm
    exact absurd hm (by simp)
  | step s e hs ih =>
    unfold intercept
    by_cases hsv : e.fromServer = true
    · rw [if_pos hsv]
      cases hc : consume s.generated e.code with
      | some gen2 =>
        intro hm km hmem hp
        exact ih hm km hmem hp
      | none =>
        intro hm km1 hmem hp
        simp only [processRules_fst] at hmem
        rcases List.mem_map.mp hmem with ⟨km, hkmem, rfl⟩
        unfold ruleStep at hp ⊢
        by_cases hmatch : km_match kc2ks km e.code = true
        · rw [if_pos hmatch] at hp ⊢
          unfold handle_key at hp ⊢
          by_cases hkp : e.kind = EvKind.keyPress
          · rw [if_pos hkp] at hp ⊢
            simp only [hkp] at hm ⊢
            simp at hm
            simp [hm]
          · rw [if_neg hkp] at hp ⊢
            split at hp
            · exact absurd hp (by simp)
            · exact absurd hp (by simp)
        · rw [if_neg hmatch] at hp ⊢
          by_cases hpk : km.pressed = true
              ∧ (e.kind = EvKind.keyPress ∨ e.kind = EvKind.buttonPress)
          · rw [if_pos hpk]
          · rw [if_neg hpk] at hp ⊢
            cases hk : e.kind with
            | buttonPress => exact absurd ⟨hp, Or.inr hk⟩ hpk
            | buttonRelease =>
              rw [hk] at hm
              simp at hm
            | keyPress =>
              rw [hk] at hm
              simp only [reduceCtorEq, if_neg, if_false] at hm
              exact ih (by simpa using hm) km hkmem hp
            | keyRelease =>
              rw [hk] at hm
              simp only [reduceCtorEq, if_neg, if_false] at hm
              exact ih (by simpa using hm) km hkmem hp
    · rw [if_neg hsv]
      intro hm km hmem hp
      exact ih hm km hmem hp

/-
The claims.
-/

/-- C2: an observed event whose hardware code matches an entry of the
generated-event ledger removes exactly the first (oldest) matching
entry, one entry per observed echo in insertion order with no
coalescing of duplicate codes, and produces no rule-side effects:
rules, mouse flag and group bytes are untouched and nothing is
emitted, so an injected substitution never re-triggers rule
evaluation. -/
theorem c2_ledger_consume_oldest_no_side_effects (kc2ks : Nat → Nat)
    (s : XCape) (e : Event)
    (hsv : e.fromServer = true) (hmem : e.code ∈ s.generated) :
    intercept kc2ks s e
      = ({ s with generated := s.generated.erase e.code }, []) :=
  intercept_consumed kc2ks s e hsv hmem

/-- C2 witness: with outstanding entries 9, 5, 9 an observed event of
code 9 removes only the oldest 9 and changes nothing else. -/
theorem c2_witness :
    intercept (fun n => n) sLedger
        { kind := EvKind.keyPress, code := 9, time := 0, group := 0,
          groupAfterLock := 0, fromServer := true }
      = ({ sLedger with generated := [5, 9] }, []) := by
  have h := c2_ledger_consume_oldest_no_side_effects (fun n => n) sLedger
      { kind := EvKind.keyPress, code := 9, time := 0, group := 0,
        groupAfterLock := 0, fromServer := true }
      rfl (by decide)
  exact h.trans (by decide)

/-- C10: ledger matching compares only the hardware code of the
observed event against the entries and ignores the event kind: two
observed events with the same outstanding code but different kinds are
processed identically, and the event is silently dropped: the entry is
consumed, nothing is emitted, and neither rule processing nor group
tracking runs for it. -/
theorem c10_ledger_ignores_event_kind (kc2ks : Nat → Nat) (s : XCape)
    (e1 e2 : Event)
    (h1 : e1.fromServer = true) (h2 : e2.fromServer = true)
    (hcode : e1.code = e2.code) (hmem : e1.code ∈ s.generated) :
    intercept kc2ks s e1 = intercept kc2ks s e2
      ∧ (intercept kc2ks s e1).2 = []
      ∧ (intercept kc2ks s e1).1.map = s.map
      ∧ (intercept kc2ks s e1).1.previous_group = s.previous_group
      ∧ (intercept kc2ks s e1).1.intended_group = s.intended_group := by
  have k1 := intercept_consumed kc2ks s e1 h1 hmem
  have k2 := intercept_consumed kc2ks s e2 h2 (hcode ▸ hmem)
  refine ⟨?_, by rw [k1], by rw [k1], by rw [k1], by rw [k1]⟩
  rw [k1, k2, hcode]

/-- C10 witness: a KeyPress and a ButtonRelease of outstanding code 9
are dropped identically although the recorded injection was a key
event. -/
theorem c10_witness :
    intercept (fun n => n) sLedger
        { kind := EvKind.keyPress, code := 9, time := 3, group := 0,
          groupAfterLock := 0, fromServer := true }
      = intercept (fun n => n) sLedger
          { kind := EvKind.buttonRelease, code := 9, time := 7, group := 1,
            groupAfterLock := 2, fromServer := true }
      ∧ (intercept (fun n => n) sLedger
          { kind := EvKind.keyPress, code := 9, time := 3, group := 0,
            groupAfterLock := 0, fromServer := true }).2 = []
      ∧ (intercept (fun n => n) sLedger
          { kind := EvKind.keyPress, code := 9, time := 3, group := 0,
            groupAfterLock := 0, fromServer := true }).1.map = sLedger.map
      ∧ (intercept (fun n => n) sLedger
          { kind := EvKind.keyPress, code := 9, time := 3, group := 0,
            groupAfterLock := 0, fromServer := true }).1.previous_group
          = sLedger.previous_group
      ∧ (intercept (fun n => n) sLedger
          { kind := EvKind.keyPress, code := 9, time := 3, group := 0,
            groupAfterLock := 0, fromServer := true }).1.intended_group
          = sLedger.intended_group :=
  c10_ledger_ignores_event_kind (fun n => n) sLedger
    { kind := EvKind.keyPress, code := 9, time := 3, group := 0,
      groupAfterLock := 0, fromServer := true }
    { kind := EvKind.buttonRelease, code := 9, time := 7, group := 1,
      groupAfterLock := 2, fromServer := true }
    rfl rfl rfl (by decide)

/-- C6 counterexample: an observed echo (code 5 outstanding) skips the
group logic entirely: no group assertion is emitted, previous_group is
not updated from any re-read group, and the intended group is not
updated although the group read for this event (1) differs from
previous_group (0). The claim demands all of this for every observed
event. -/
theorem c6_counterexample :
    (intercept (fun n => n) sEcho eEcho).2 = []
      ∧ (intercept (fun n => n) sEcho eEcho).1.previous_group
          ≠ eEcho.groupAfterLock
      ∧ (intercept (fun n => n) sEcho eEcho).1.intended_group
          ≠ eEcho.group := by decide

/-- C6 (amended): for every event the generated-event ledger does not
consume, the processing ends by asserting the intended group, updated
first to the group read for the event whenever that differs from
previous_group, and stores the group read back after the assertion as
previous_group. Events consumed by the ledger skip the group logic. -/
theorem c6_group_reassert_unconsumed (kc2ks : Nat → Nat) (s : XCape)
    (e : Event)
    (h : e.fromServer = true → consume s.generated e.code = none) :
    ((intercept kc2ks s e).2).getLast?
        = some (Action.lockGroup (intercept kc2ks s e).1.intended_group)
      ∧ (intercept kc2ks s e).1.previous_group = e.groupAfterLock
      ∧ (intercept kc2ks s e).1.intended_group
          = (if s.previous_group ≠ e.group then e.group
             else s.intended_group) := by
  unfold intercept
  by_cases hsv : e.fromServer = true
  · rw [if_pos hsv, h hsv]
    exact ⟨List.getLast?_concat _, rfl, rfl⟩
  · rw [if_neg hsv]
    exact ⟨rfl, rfl, rfl⟩

/-- C6 witness: a non-echo event observed in group 1 while
previous_group is 0 ends with a group assertion, previous_group takes
the re-read group and the intended group adopts the observed group. -/
theorem c6_witness :
    ((intercept (fun n => n) sSingle
        { kind := EvKind.keyRelease, code := 99, time := 0, group := 1,
          groupAfterLock := 1, fromServer := true }).2).getLast?
        = some (Action.lockGroup
            (intercept (fun n => n) sSingle
              { kind := EvKind.keyRelease, code := 99, time := 0,
                group := 1, groupAfterLock := 1,
                fromServer := true }).1.intended_group)
      ∧ (intercept (fun n => n) sSingle
          { kind := EvKind.keyRelease, code := 99, time := 0, group := 1,
            groupAfterLock := 1, fromServer := true }).1.previous_group = 1
      ∧ (intercept (fun n => n) sSingle
          { kind := EvKind.keyRelease, code := 99, time := 0, group := 1,
            groupAfterLock := 1, fromServer := true }).1.intended_group
          = (if (0 : Nat) ≠ 1 then 1 else 0) :=
  c6_group_reassert_unconsumed (fun n => n) sSingle
    { kind := EvKind.keyRelease, code := 99, time := 0, group := 1,
      groupAfterLock := 1, fromServer := true }
    (fun _ => rfl)

/-- C1: a press of the trigger of a clean idle single rule, followed by
any observed events that are neither presses nor matches of the rule,
then its release with elapsed time strictly below the timeout, injects
exactly one substitution sequence: press events for all substitution
codes in rule order, then release events for the same codes in the same
order, so a multi-code substitution forms a chord. -/
theorem c1_tap_injects_one_chord (kc2ks : Nat → Nat) (km : KeyMap)
    (T ig pg c t1 t2 g1 ga1 g2 ga2 : Nat) (mids : List Event)
    (hused : km.used = false)
    (hmatch : km_match kc2ks km c = true)
    (hmids : ∀ e ∈ mids, e.fromServer = true
        ∧ km_match kc2ks km e.code = false ∧ isPressKind e.kind = false)
    (htime : t2 - t1 < T) :
    (runEvents kc2ks
        { map := [km], generated := [], timeout := T,
          intended_group := ig, previous_group := pg,
          mouse_pressed := false }
        ({ kind := EvKind.keyPress, code := c, time := t1, group := g1,
           groupAfterLock := ga1, fromServer := true }
          :: (mids
              ++ [{ kind := EvKind.keyRelease, code := c, time := t2,
                    group := g2, groupAfterLock := ga2,
                    fromServer := true }]))).2.filter Action.isFake
      = km.to_keys.map (fun k => Action.fake k true)
          ++ km.to_keys.map (fun k => Action.fake k false) := by
  obtain ⟨pre, post, htr, hpre, hpost⟩ :=
    run_tap_parts kc2ks km T ig pg c t1 t2 g1 ga1 g2 ga2 mids
      hused hmatch hmids htime
  have hpre0 : pre.filter Action.isFake = [] :=
    List.filter_eq_nil_iff.mpr (fun a ha => by
      rcases hpre a ha with ⟨g, rfl⟩
      simp [Action.isFake])
  have hpost0 : post.filter Action.isFake = [] :=
    List.filter_eq_nil_iff.mpr (fun a ha => by
      rcases hpost a ha with ⟨g, rfl⟩
      simp [Action.isFake])
  rw [htr]
  simp [List.filter_append, filter_isFake_map_fake, Action.isFake,
        hpre0, hpost0]

/-- C1 witness: scenario D of the spec, chord rule with substitution
codes 37 then 9, clean tap after 100 ms with no intervening event:
injected order is press 37, press 9, release 37, release 9. -/
theorem c1_witness :
    (runEvents (fun n => n) sChord
        ({ kind := EvKind.keyPress, code := 133, time := 1000, group := 0,
           groupAfterLock := 0, fromServer := true }
          :: (([] : List Event)
              ++ [{ kind := EvKind.keyRelease, code := 133, time := 101000,
                    group := 0, groupAfterLock := 0,
                    fromServer := true }]))).2.filter Action.isFake
      = [Action.fake 37 true, Action.fake 9 true,
         Action.fake 37 false, Action.fake 9 false] :=
  c1_tap_injects_one_chord (fun n => n) kmChord 500000 0 0 133 1000 101000
    0 0 0 0 [] rfl (by decide) (by simp) (by decide)

/-- C8 counterexample: on the confirmed tap of scenario A the run
emits exactly one flush, not the two flushes (one between the passes,
one after) that the claim requires. -/
theorem c8_counterexample :
    ((runEvents (fun n => n) sSingle
        [{ kind := EvKind.keyPress, code := 37, time := 0, group := 0,
           groupAfterLock := 0, fromServer := true },
         { kind := EvKind.keyRelease, code := 37, time := 100000,
           group := 0, groupAfterLock := 0,
           fromServer := true }]).2.filter Action.isFlush).length = 1
      ∧ ¬((runEvents (fun n => n) sSingle
        [{ kind := EvKind.keyPress, code := 37, time := 0, group := 0,
           groupAfterLock := 0, fromServer := true },
         { kind := EvKind.keyRelease, code := 37, time := 100000,
           group := 0, groupAfterLock := 0,
           fromServer := true }]).2.filter Action.isFlush).length = 2 := by
  decide

/-- C8 (amended): on a confirmed tap the injection performs exactly one
flush, emitted after both the press pass and the release pass; no flush
separates the two passes. -/
theorem c8_one_flush_after_both_passes (kc2ks : Nat → Nat) (km : KeyMap)
    (T ig pg c t1 t2 g1 ga1 g2 ga2 : Nat) (mids : List Event)
    (hused : km.used = false)
    (hmatch : km_match kc2ks km c = true)
    (hmids : ∀ e ∈ mids, e.fromServer = true
        ∧ km_match kc2ks km e.code = false ∧ isPressKind e.kind = false)
    (htime : t2 - t1 < T) :
    (runEvents kc2ks
        { map := [km], generated := [], timeout := T,
          intended_group := ig, previous_group := pg,
          mouse_pressed := false }
        ({ kind := EvKind.keyPress, code := c, time := t1, group := g1,
           groupAfterLock := ga1, fromServer := true }
          :: (mids
              ++ [{ kind := EvKind.keyRelease, code := c, time := t2,
                    group := g2, groupAfterLock := ga2,
                    fromServer := true }]))).2.filter
        (fun a => Action.isFake a || Action.isFlush a)
      = km.to_keys.map (fun k => Action.fake k true)
          ++ km.to_keys.map (fun k => Action.fake k false)
          ++ [Action.flush] := by
  obtain ⟨pre, post, htr, hpre, hpost⟩ :=
    run_tap_parts kc2ks km T ig pg c t1 t2 g1 ga1 g2 ga2 mids
      hused hmatch hmids htime
  have hpre0 : pre.filter (fun a => Action.isFake a || Action.isFlush a)
      = [] :=
    List.filter_eq_nil_iff.mpr (fun a ha => by
      rcases hpre a ha with ⟨g, rfl⟩
      simp [Action.isFake, Action.isFlush])
  have hpost0 : post.filter (fun a => Action.isFake a || Action.isFlush a)
      = [] :=
    List.filter_eq_nil_iff.mpr (fun a ha => by
      rcases hpost a ha with ⟨g, rfl⟩
      simp [Action.isFake, Action.isFlush])
  have hmapf := filter_map_fake_of_fake_true
      (fun a => Action.isFake a || Action.isFlush a)
      (fun k b => by simp [Action.isFake])
  have hflush : List.filter (fun a => Action.isFake a || Action.isFlush a)
      [Action.flush] = [Action.flush] := rfl
  rw [htr]
  simp only [List.filter_append, hpre0, hpost0, hmapf, hflush]
  simp

/-- C8 amended-claim witness: the scenario A tap emits its fake events
followed by the single flush. -/
theorem c8_witness :
    (runEvents (fun n => n) sSingle
        ({ kind := EvKind.keyPress, code := 37, time := 0, group := 0,
           groupAfterLock := 0, fromServer := true }
          :: (([] : List Event)
              ++ [{ kind := EvKind.keyRelease, code := 37, time := 100000,
                    group := 0, groupAfterLock := 0,
                    fromServer := true }]))).2.filter
        (fun a => Action.isFake a || Action.isFlush a)
      = [Action.fake 9 true, Action.fake 9 false, Action.flush] :=
  c8_one_flush_after_both_passes (fun n => n) kmSingle 500000 0 0 37 0
    100000 0 0 0 0 [] rfl (by decide) (by simp) (by decide)

/-- C4: a trigger press directly followed by its release with elapsed
time at or above the timeout injects nothing: the tap comparison is
strict less-than, so elapsed time exactly equal to the timeout does
not count as a tap. -/
theorem c4_timeout_is_strict (kc2ks : Nat → Nat) (km : KeyMap)
    (T ig pg c t1 t2 g1 ga1 g2 ga2 : Nat) (mouse : Bool) (gen : List Nat)
    (hmatch : km_match kc2ks km c = true)
    (hgen : c ∉ gen)
    (htime : T ≤ t2 - t1) :
    (runEvents kc2ks
        { map := [km], generated := gen, timeout := T,
          intended_group := ig, previous_group := pg,
          mouse_pressed := mouse }
        [{ kind := EvKind.keyPress, code := c, time := t1, group := g1,
           groupAfterLock := ga1, fromServer := true },
         { kind := EvKind.keyRelease, code := c, time := t2, group := g2,
           groupAfterLock := ga2, fromServer := true }]).2.filter
        Action.isFake
      = [] := by
  set s0 : XCape :=
    { map := [km], generated := gen, timeout := T, intended_group := ig,
      previous_group := pg, mouse_pressed := mouse } with hs0
  set e1 : Event :=
    { kind := EvKind.keyPress, code := c, time := t1, group := g1,
      groupAfterLock := ga1, fromServer := true } with he1
  set e2 : Event :=
    { kind := EvKind.keyRelease, code := c, time := t2, group := g2,
      groupAfterLock := ga2, fromServer := true } with he2
  have h1 := intercept_press_match kc2ks s0 e1 km rfl rfl rfl
      (by exact consume_eq_none gen c hgen) (by exact hmatch)
  have h2 := intercept_release_no_tap kc2ks (intercept kc2ks s0 e1).1 e2
      { km with
          pressed := true,
          down_at := t1,
          used := (if s0.mouse_pressed then true else km.used) }
      (by rw [h1]) rfl rfl
      (by rw [h1]; exact consume_eq_none gen c hgen)
      (by exact hmatch)
      (by intro hcon
          have hx := hcon.2
          rw [intercept_timeout] at hx
          exact absurd hx (Nat.not_lt.mpr htime))
  have f1 : (intercept kc2ks s0 e1).2.filter Action.isFake = [] := by
    rw [h1]
    simp [Action.isFake]
  have f2 : (intercept kc2ks (intercept kc2ks s0 e1).1 e2).2.filter
      Action.isFake = [] := by
    rw [h2]
    simp [Action.isFake]
  simp only [runEvents]
  simp [List.filter_append, f1, f2]

/-- C4 witness: with the default 500 ms timeout, a release exactly
500000 microseconds after the press injects nothing. -/
theorem c4_witness :
    (runEvents (fun n => n)
        { map := [kmSingle], generated := [], timeout := 500000,
          intended_group := 0, previous_group := 0,
          mouse_pressed := false }
        [{ kind := EvKind.keyPress, code := 37, time := 0, group := 0,
           groupAfterLock := 0, fromServer := true },
         { kind := EvKind.keyRelease, code := 37, time := 500000,
           group := 0, groupAfterLock := 0, fromServer := true }]).2.filter
        Action.isFake
      = [] :=
  c4_timeout_is_strict (fun n => n) kmSingle 500000 0 0 37 0 500000
    0 0 0 0 false [] (by decide) (by decide) (by decide)

/-- C5: a trigger pressed while a mouse button is already held down is
marked used at the moment of the press, and the press/release pair
injects nothing even though the release comes inside the timeout with
no other intervening input. -/
theorem c5_mouse_held_disqualifies (kc2ks : Nat → Nat) (km : KeyMap)
    (T ig pg c t1 t2 g1 ga1 g2 ga2 : Nat) (gen : List Nat)
    (hmatch : km_match kc2ks km c = true)
    (hgen : c ∉ gen)
    (htime : t2 - t1 < T) :
    (intercept kc2ks
        { map := [km], generated := gen, timeout := T,
          intended_group := ig, previous_group := pg,
          mouse_pressed := true }
        { kind := EvKind.keyPress, code := c, time := t1, group := g1,
          groupAfterLock := ga1, fromServer := true }).1.map
        = [{ km with pressed := true, down_at := t1, used := true }]
      ∧ (runEvents kc2ks
          { map := [km], generated := gen, timeout := T,
            intended_group := ig, previous_group := pg,
            mouse_pressed := true }
          [{ kind := EvKind.keyPress, code := c, time := t1, group := g1,
             groupAfterLock := ga1, fromServer := true },
           { kind := EvKind.keyRelease, code := c, time := t2,
             group := g2, groupAfterLock := ga2,
             fromServer := true }]).2.filter Action.isFake
        = [] := by
  set s0 : XCape :=
    { map := [km], generated := gen, timeout := T, intended_group := ig,
      previous_group := pg, mouse_pressed := true } with hs0
  set e1 : Event :=
    { kind := EvKind.keyPress, code := c, time := t1, group := g1,
      groupAfterLock := ga1, fromServer := true } with he1
  set e2 : Event :=
    { kind := EvKind.keyRelease, code := c, time := t2, group := g2,
      groupAfterLock := ga2, fromServer := true } with he2
  have h1 := intercept_press_match kc2ks s0 e1 km rfl rfl rfl
      (by exact consume_eq_none gen c hgen) (by exact hmatch)
  have h2 := intercept_release_no_tap kc2ks (intercept kc2ks s0 e1).1 e2
      { km with pressed := true, down_at := t1, used := true }
      (by rw [h1]; simp [hs0, he1]) rfl rfl
      (by rw [h1]; exact consume_eq_none gen c hgen)
      (by exact hmatch)
      (by intro hcon
          exact absurd hcon.1 (by simp))
  have f1 : (intercept kc2ks s0 e1).2.filter Action.isFake = [] := by
    rw [h1]
    simp [Action.isFake]
  have f2 : (intercept kc2ks (intercept kc2ks s0 e1).1 e2).2.filter
      Action.isFake = [] := by
    rw [h2]
    simp [Action.isFake]
  refine ⟨by rw [h1]; simp [hs0, he1], ?_⟩
  simp only [runEvents]
  simp [List.filter_append, f1, f2]

/-- C5 witness: keycode 37 pressed while the mouse flag is held and
released 100 ms later with no other input: the rule is used from the
press on and nothing is injected. -/
theorem c5_witness :
    (intercept (fun n => n)
        { map := [kmSingle], generated := [], timeout := 500000,
          intended_group := 0, previous_group := 0,
          mouse_pressed := true }
        { kind := EvKind.keyPress, code := 37, time := 0, group := 0,
          groupAfterLock := 0, fromServer := true }).1.map
        = [{ kmSingle with pressed := true, down_at := 0, used := true }]
      ∧ (runEvents (fun n => n)
          { map := [kmSingle], generated := [], timeout := 500000,
            intended_group := 0, previous_group := 0,
            mouse_pressed := true }
          [{ kind := EvKind.keyPress, code := 37, time := 0, group := 0,
             groupAfterLock := 0, fromServer := true },
           { kind := EvKind.keyRelease, code := 37, time := 100000,
             group := 0, groupAfterLock := 0,
             fromServer := true }]).2.filter Action.isFake
        = [] :=
  c5_mouse_held_disqualifies (fun n => n) kmSingle 500000 0 0 37 0 100000
    0 0 0 0 [] (by decide) (by decide) (by decide)

/-- C3: any other key press or mouse button press observed strictly
between the trigger press and its release disqualifies the tap: the
intervening press sets the rule used flag while the rule is pressed,
and the release of a used rule emits nothing, regardless of elapsed
time. -/
theorem c3_intervening_press_blocks (kc2ks : Nat → Nat) (km : KeyMap)
    (T ig pg c t1 t2 g1 ga1 g2 ga2 : Nat) (mouse : Bool)
    (mids : List Event)
    (hmatch : km_match kc2ks km c = true)
    (hmids : ∀ e ∈ mids, e.fromServer = true
        ∧ km_match kc2ks km e.code = false)
    (hpress : ∃ e ∈ mids, isPressKind e.kind = true) :
    (runEvents kc2ks
        { map := [km], generated := [], timeout := T,
          intended_group := ig, previous_group := pg,
          mouse_pressed := mouse }
        ({ kind := EvKind.keyPress, code := c, time := t1, group := g1,
           groupAfterLock := ga1, fromServer := true }
          :: (mids
              ++ [{ kind := EvKind.keyRelease, code := c, time := t2,
                    group := g2, groupAfterLock := ga2,
                    fromServer := true }]))).2.filter Action.isFake
      = [] := by
  set s0 : XCape :=
    { map := [km], generated := [], timeout := T, intended_group := ig,
      previous_group := pg, mouse_pressed := mouse } with hs0
  set e1 : Event :=
    { kind := EvKind.keyPress, code := c, time := t1, group := g1,
      groupAfterLock := ga1, fromServer := true } with he1
  set e2 : Event :=
    { kind := EvKind.keyRelease, code := c, time := t2, group := g2,
      groupAfterLock := ga2, fromServer := true } with he2
  set km1 : KeyMap :=
    { km with
        pressed := true,
        down_at := t1,
        used := (if s0.mouse_pressed then true else km.used) } with hkm1
  have h1 := intercept_press_match kc2ks s0 e1 km rfl rfl rfl rfl
      (by exact hmatch)
  obtain ⟨hm2, hg2, ht2, hl2⟩ :=
    runEvents_no_match kc2ks mids (intercept kc2ks s0 e1).1 km1
      (by rw [h1]) (by rw [h1]) (by rw [hkm1])
      (fun e he => ⟨(hmids e he).1, by exact (hmids e he).2⟩)
  have hany : mids.any (fun e => isPressKind e.kind) = true := by
    rcases hpress with ⟨e, he, hp⟩
    exact List.any_eq_true.mpr ⟨e, he, hp⟩
  have h3 := intercept_release_no_tap kc2ks
      (runEvents kc2ks (intercept kc2ks s0 e1).1 mids).1 e2
      { km1 with used := km1.used || mids.any (fun e => isPressKind e.kind) }
      hm2 rfl rfl (by rw [hg2]; rfl) (by exact hmatch)
      (by intro hcon
          have hx := hcon.1
          simp [hany] at hx)
  have f1 : (intercept kc2ks s0 e1).2.filter Action.isFake = [] := by
    rw [h1]
    simp [Action.isFake]
  have f2 : (runEvents kc2ks (intercept kc2ks s0 e1).1 mids).2.filter
      Action.isFake = [] :=
    List.filter_eq_nil_iff.mpr (fun a ha => by
      rcases hl2 a ha with ⟨g, rfl⟩
      simp [Action.isFake])
  have f3 : (intercept kc2ks
      (runEvents kc2ks (intercept kc2ks s0 e1).1 mids).1 e2).2.filter
      Action.isFake = [] := by
    rw [h3]
    simp [Action.isFake]
  simp only [runEvents, runEvents_append]
  simp [List.filter_append, f1, f2, f3]

/-- C3 witness: scenario B of the spec: press keycode 37 at 0, press
keycode 38 at 50 ms, release keycode 37 at 100 ms: nothing is
injected although the release is far inside the timeout. -/
theorem c3_witness :
    (runEvents (fun n => n)
        { map := [kmSingle], generated := [], timeout := 500000,
          intended_group := 0, previous_group := 0,
          mouse_pressed := false }
        ({ kind := EvKind.keyPress, code := 37, time := 0, group := 0,
           groupAfterLock := 0, fromServer := true }
          :: ([{ kind := EvKind.keyPress, code := 38, time := 50000,
                 group := 0, groupAfterLock := 0, fromServer := true }]
              ++ [{ kind := EvKind.keyRelease, code := 37, time := 100000,
                    group := 0, groupAfterLock := 0,
                    fromServer := true }]))).2.filter Action.isFake
      = [] :=
  c3_intervening_press_blocks (fun n => n) kmSingle 500000 0 0 37 0 100000
    0 0 0 0 false
    [{ kind := EvKind.keyPress, code := 38, time := 50000, group := 0,
       groupAfterLock := 0, fromServer := true }]
    (by decide) (by decide) (by decide)

/-- C9: a KeyPress of a rule trigger that reaches the handler while the
rule is already pressed (keyboard auto-repeat) does not require the
idle state: the rule stays pressed, down_at is re-captured as the time
of this press, restarting the tap window from the latest press so a
later release is timed against it, and the used flag is left unchanged
in every reachable state. -/
theorem c9_repeat_press_restarts_window (kc2ks : Nat → Nat) (s : XCape)
    (e : Event) (i : Nat) (km : KeyMap)
    (hreach : Reachable kc2ks s)
    (hkm : s.map.get? i = some km)
    (hpressed : km.pressed = true)
    (hmatch : km_match kc2ks km e.code = true)
    (hkind : e.kind = EvKind.keyPress)
    (hserver : e.fromServer = true)
    (hnotgen : e.code ∉ s.generated) :
    (intercept kc2ks s e).1.map.get? i
      = some { km with
                 pressed := true,
                 down_at := e.time,
                 used := km.used } := by
  have hrs : ∀ mouse : Bool, (mouse = true → km.used = true) →
      ruleStep kc2ks s.timeout e.kind e.code e.time mouse km
        = { km with
              pressed := true,
              down_at := e.time,
              used := km.used } := by
    intro mouse hmu
    unfold ruleStep
    rw [if_pos hmatch]
    unfold handle_key
    rw [if_pos hkind]
    cases mouse with
    | false => simp
    | true => simp [hmu rfl]
  unfold intercept
  rw [if_pos hserver, consume_eq_none s.generated e.code hnotgen]
  simp only [processRules_fst, List.get?_map, hkm, Option.map_some']
  by_cases hmp : s.mouse_pressed = true
  · have hinv := reachable_mouse_inv kc2ks s hreach hmp km
      (List.get?_mem hkm) hpressed
    rw [hrs _ (fun _ => hinv)]
  · have hmp2 : s.mouse_pressed = false := by simpa using hmp
    rw [hrs _ (fun hcon => absurd hcon (by simp [hkind, hmp2]))]

/-- C9 witness: after a first press at time 1000, an auto-repeat press
at time 5000 reaches the pressed rule and re-captures down_at as 5000
with used still false. -/
theorem c9_witness :
    (intercept (fun n => n)
        (intercept (fun n => n)
            { map := [kmSingle], generated := [], timeout := 500000,
              intended_group := 0, previous_group := 0,
              mouse_pressed := false }
            { kind := EvKind.keyPress, code := 37, time := 1000,
              group := 0, groupAfterLock := 0, fromServer := true }).1
        { kind := EvKind.keyPress, code := 37, time := 5000, group := 0,
          groupAfterLock := 0, fromServer := true }).1.map.get? 0
      = some { kmSingle with
                 pressed := true,
                 down_at := 5000,
                 used := false } := by
  have hr : Reachable (fun n => n)
      (intercept (fun n => n)
          { map := [kmSingle], generated := [], timeout := 500000,
            intended_group := 0, previous_group := 0,
            mouse_pressed := false }
          { kind := EvKind.keyPress, code := 37, time := 1000,
            group := 0, groupAfterLock := 0, fromServer := true }).1 :=
    Reachable.step _ _ (Reachable.init [kmSingle] 500000 0 0 (by decide))
  have h := c9_repeat_press_restarts_window (fun n => n) _
      { kind := EvKind.keyPress, code := 37, time := 5000, group := 0,
        groupAfterLock := 0, fromServer := true }
      0 { kmSingle with pressed := true, down_at := 1000 }
      hr (by decide) rfl (by decide) rfl rfl (by decide)
  exact h

/-- C7: parsing the mapping string with the entry "bad=Escape" whose
trigger name does not resolve: the claim and the spec say the entry is
reported and skipped without entering the table, but keysym_from_string
returns without propagating the failure, so parse_token still returns
the calloc-zeroed rule and the malformed entry enters the table as a
keysym rule with a zeroed trigger; the entry without an equals sign is
dropped and the valid entry parses, as claimed. -/
theorem c7_unresolvable_from_entry_added :
    parse_mapping envSample "bad=Escape;Control_L=Escape;foo".data
      = [{ useKeyCode := false, from_ks := 0, from_kc := 0,
           to_keys := [9], used := false, pressed := false, down_at := 0 },
         { useKeyCode := false, from_ks := 65507, from_kc := 0,
           to_keys := [9], used := false, pressed := false,
           down_at := 0 }] := by decide

end Xcape
